import Mathlib

/-!
Shallow embedding of the portlist port/process introspection engine
(TypeScript sources: the lsof/ss/netstat output parsers, the enrichment
merge, the three platform scanner pipelines, the Unix kill-escalation
protocol and the polling manager), together with theorems settling the
frozen specification claims.

Conventions of the embedding:
* JS strings are modelled as `String` at API boundaries and `List Char`
  internally; `jsTrim`, `splitOnChar`, `wsSplitTrimmed` transliterate
  `String.prototype.trim`, `split(c)` and `split(/\s+/)` (the latter is
  only ever applied to trimmed strings in the source, which is the case
  the definition covers exactly).
* JS `Map` objects are modelled as insertion-ordered association lists
  (`jsMapSet` overwrites in place, `jsMapGet` looks up).
* JS numbers produced by `parseInt(x, 10)` are modelled as exact `Int`
  (the float precision loss of JavaScript on huge inputs is not modelled).
* The regular expressions of the source are transliterated into
  deterministic matchers; where the regex engine's greedy backtracking
  is not forced, the matcher implements the same leftmost-start /
  greedy-group preference (see the comments at each matcher).
-/

namespace Portlist

abbrev Chars := List Char

/-- Whitespace test used by `trim` and `\s` (ASCII part; the tool outputs
contain no further Unicode whitespace). -/
def isWs (c : Char) : Bool :=
  c = ' ' || c = '\t' || c = '\n' || c = '\r' || c = '\x0b' || c = '\x0c'

/-- JS `String.prototype.trim`. -/
def jsTrim (cs : Chars) : Chars :=
  ((cs.dropWhile isWs).reverse.dropWhile isWs).reverse

/-- JS `String.prototype.split(sep)` for a one-character separator:
splits keeping empty pieces, `"" ↦ [""]`. -/
def splitOnChar (sep : Char) : Chars → List Chars
  | [] => [[]]
  | c :: cs =>
    let r := splitOnChar sep cs
    if c = sep then [] :: r
    else
      match r with
      | [] => [[c]]
      | t :: ts => (c :: t) :: ts

/-- Tokenizer for `split(/\s+/)`: maximal non-whitespace runs, in order. -/
def wsTokensAux : Chars → Chars → List Chars
  | [], cur => if cur.isEmpty then [] else [cur.reverse]
  | c :: cs, cur =>
    if isWs c then
      if cur.isEmpty then wsTokensAux cs []
      else cur.reverse :: wsTokensAux cs []
    else wsTokensAux cs (c :: cur)

/-- JS `s.split(/\s+/)` for strings without leading or trailing
whitespace.  Every call site in the source first applies `trim`, so this
is the exact case needed; JS returns `[""]` on the empty string. -/
def wsSplitTrimmed (cs : Chars) : List Chars :=
  if cs.isEmpty then [[]] else wsTokensAux cs []

/-- JS `String.prototype.includes` (substring containment). -/
def containsSub (needle : Chars) : Chars → Bool
  | [] => needle.isEmpty
  | c :: cs => needle.isPrefixOf (c :: cs) || containsSub needle cs

/-- Test for the regex `/^\d+$/`. -/
def isDigits (cs : Chars) : Bool :=
  !cs.isEmpty && cs.all Char.isDigit

/-- Numeric value of an all-digit character run. -/
def digitsToNat (cs : Chars) : Nat :=
  cs.foldl (fun n c => n * 10 + (c.toNat - '0'.toNat)) 0

/-- Maximal leading digit run interpreted as a number, `none` when the
input does not start with a digit. -/
def leadingDigits (cs : Chars) : Option Nat :=
  let ds := cs.takeWhile Char.isDigit
  if ds.isEmpty then none else some (digitsToNat ds)

/-- JS `parseInt(tok, 10)` on a whitespace-free token: optional sign,
then the maximal digit run; `none` models `NaN`. -/
def jsParseInt : Chars → Option Int
  | '-' :: rest => (leadingDigits rest).map (fun n => -(n : Int))
  | '+' :: rest => (leadingDigits rest).map (fun n => (n : Int))
  | cs => (leadingDigits cs).map (fun n => (n : Int))

/-- Join a list of character runs with a separator
(JS `Array.prototype.join`). -/
def joinWith (sep : Chars) (xs : List Chars) : Chars :=
  List.intercalate sep xs

/-- JS `Map.prototype.set`: overwrite in place, else append (insertion
order preserved, as JS `Map` iteration requires). -/
def jsMapSet {α : Type} : List (Int × α) → Int → α → List (Int × α)
  | [], k, v => [(k, v)]
  | (k', v') :: rest, k, v =>
    if k' = k then (k', v) :: rest else (k', v') :: jsMapSet rest k v

/-- JS `Map.prototype.get` (as an `Option`). -/
def jsMapGet {α : Type} (m : List (Int × α)) (k : Int) : Option α :=
  (m.find? (fun p => p.1 = k)).map (fun p => p.2)

/-- JS `x || dflt` for strings: the default replaces both a missing and
an empty (falsy) value. -/
def jsOrString (o : Option String) (dflt : String) : String :=
  match o with
  | some s => if s = "" then dflt else s
  | none => dflt

/-- JS `[...new Set(l)]`: deduplication keeping first occurrences. -/
def dedupFirstIntAux (seen : List Int) : List Int → List Int
  | [] => []
  | x :: xs =>
    if x ∈ seen then dedupFirstIntAux seen xs
    else x :: dedupFirstIntAux (x :: seen) xs

def dedupFirstInt (l : List Int) : List Int :=
  dedupFirstIntAux [] l

/-- Leftmost-match search: try the matcher at every start position from
the left, as `String.prototype.match` with an unanchored regex does. -/
def searchFirst {α : Type} (m : Chars → Option α) : Chars → Option α
  | [] => m []
  | c :: cs =>
    match m (c :: cs) with
    | some r => some r
    | none => searchFirst m cs

/-- Rightmost-match search: used where a greedy `.*` makes the regex
engine prefer the latest position at which the tail pattern matches. -/
def searchLast {α : Type} (m : Chars → Option α) : Chars → Option α
  | [] => m []
  | c :: cs =>
    match searchLast m cs with
    | some r => some r
    | none => m (c :: cs)

/-! ## Data model -/

inductive Protocol where
  | TCP
  | UDP
deriving DecidableEq, Repr

/-- `RawPortInfo` of `lsof-parser.ts` (the ephemeral raw record). -/
structure RawPortInfo where
  pid : Int
  port : Int
  command : String
  protocol : Protocol
deriving DecidableEq, Repr

/-- `IPortInfo` of `shared/types.ts` (the externally visible entry). -/
structure IPortInfo where
  pid : Int
  port : Int
  command : String
  directory : String
  protocol : Protocol
  parentPid : Int
  parentCommand : String
deriving DecidableEq, Repr

/-- Value type of the process-info map (`{ command, ppid }`). -/
structure ProcInfo where
  command : String
  ppid : Int
deriving DecidableEq, Repr

/-! ## macOS lsof parsers (`lsof-parser.ts`) -/

/-- Split a non-whitespace run at the rightmost `:` that is followed by a
nonempty all-digit suffix reaching the end of the run; the part before
the colon must be nonempty.  This is the unique way the greedy groups in
`([^\s]+):(\d+)\s+` (and `[\d.*:]+:(\d+)\s+`) can match: the digits of
`(\d+)` must extend to the first whitespace, so the capture is forced to
the trailing digit run and the colon immediately before it. -/
def splitPortRun (run : Chars) : Option (Chars × Chars) :=
  let rev := run.reverse
  let digitsRev := rev.takeWhile Char.isDigit
  if digitsRev.isEmpty then none
  else
    match rev.drop digitsRev.length with
    | ':' :: restRev =>
      if restRev.isEmpty then none
      else some (restRev.reverse, digitsRev.reverse)
    | _ => none

/-- Attempt the regex `TCP\s+([^\s]+):(\d+)\s+\(LISTEN\)` at the start of
the input; returns the two captures (address part, port digits).  Each
`\s+` is forced to the maximal whitespace run because the following atom
cannot match whitespace. -/
def tcpListenAt (cs : Chars) : Option (Chars × Chars) :=
  if ("TCP".data).isPrefixOf cs then
    let r1 := cs.drop 3
    if (r1.takeWhile isWs).isEmpty then none
    else
      let r2 := r1.dropWhile isWs
      let run := r2.takeWhile (fun c => !isWs c)
      if run.isEmpty then none
      else
        let r3 := r2.drop run.length
        if (r3.takeWhile isWs).isEmpty then none
        else
          let r4 := r3.dropWhile isWs
          if ("(LISTEN)".data).isPrefixOf r4 then splitPortRun run
          else none
  else none

/-- `line.match(/TCP\s+([^\s]+):(\d+)\s+\(LISTEN\)/)`. -/
def tcpListenSearch (cs : Chars) : Option (Chars × Chars) :=
  searchFirst tcpListenAt cs

/-- `parseLsofLine` of `lsof-parser.ts`: extract the port from the
`TCP addr:port (LISTEN)` match, then locate the first purely-numeric
whitespace-delimited token as the PID, joining all earlier tokens as the
command. -/
def parseLsofLine (line : Chars) : Option RawPortInfo :=
  match tcpListenSearch line with
  | none => none
  | some (_, portDigits) =>
    let parts := wsSplitTrimmed (jsTrim line)
    let before := parts.takeWhile (fun p => !isDigits p)
    match parts.dropWhile (fun p => !isDigits p) with
    | [] => none
    | pidTok :: _ =>
      some
        { pid := (digitsToNat pidTok : Int)
          port := (digitsToNat portDigits : Int)
          command := String.mk (joinWith [' '] before)
          protocol := Protocol.TCP }

/-- Loop body of `parseLsofOutput` over the data lines (everything after
the header line). -/
def lsofDataLines : List Chars → List RawPortInfo
  | [] => []
  | l :: ls =>
    if containsSub ("(LISTEN)".data) l then
      match parseLsofLine l with
      | some r => r :: lsofDataLines ls
      | none => lsofDataLines ls
    else lsofDataLines ls

/-- `parseLsofOutput` of `lsof-parser.ts`: trim, split on newlines,
return `[]` when at most one line, else parse every line after the
header. -/
def parseLsofOutput (output : String) : List RawPortInfo :=
  let lines := splitOnChar '\n' (jsTrim output.data)
  if lines.length ≤ 1 then [] else lsofDataLines (lines.drop 1)

/-- `parseCwdLine` of `lsof-parser.ts`: first numeric token is the PID;
require a `cwd` token, then a `DIR` token at or after it, then the first
token starting with `/`; the path is the join of all tokens from
there on. -/
def parseCwdLine (line : Chars) : Option (Int × String) :=
  let parts := wsSplitTrimmed (jsTrim line)
  match parts.dropWhile (fun p => !isDigits p) with
  | [] => none
  | pidTok :: _ =>
    match parts.findIdx? (fun p => p = "cwd".data) with
    | none => none
    | some cwdIdx =>
      match (parts.drop cwdIdx).findIdx? (fun p => p = "DIR".data) with
      | none => none
      | some dirOff =>
        let dirIdx := cwdIdx + dirOff
        match (parts.drop (dirIdx + 1)).findIdx? (fun p => p.head? = some '/') with
        | none => none
        | some pathOff =>
          let pathStart := dirIdx + 1 + pathOff
          some ((digitsToNat pidTok : Int),
            String.mk (joinWith [' '] (parts.drop pathStart)))

/-- Loop body of `parseCwdOutput` over the data lines, threading the
map being built. -/
def cwdDataLines : List Chars → List (Int × String) → List (Int × String)
  | [], acc => acc
  | l :: ls, acc =>
    if containsSub ("cwd".data) l then
      match parseCwdLine l with
      | some (pid, cwd) => cwdDataLines ls (jsMapSet acc pid cwd)
      | none => cwdDataLines ls acc
    else cwdDataLines ls acc

/-- `parseCwdOutput` of `lsof-parser.ts`. -/
def parseCwdOutput (output : String) : List (Int × String) :=
  let lines := splitOnChar '\n' (jsTrim output.data)
  if lines.length ≤ 1 then [] else cwdDataLines (lines.drop 1) []

/-- `parseProcessInfo` of `lsof-parser.ts` (the identical private copy in
`scanner-linux.ts` is embedded by this same definition): lines of
`PID PPID COMMAND...`, at least three tokens, PID and PPID must parse,
command must be nonempty. -/
def processInfoLines : List Chars → List (Int × ProcInfo) → List (Int × ProcInfo)
  | [], acc => acc
  | l :: ls, acc =>
    let trimmed := jsTrim l
    if trimmed.isEmpty then processInfoLines ls acc
    else
      let parts := wsSplitTrimmed trimmed
      if parts.length < 3 then processInfoLines ls acc
      else
        let command := joinWith [' '] (parts.drop 2)
        match jsParseInt (parts.headD []), jsParseInt ((parts.drop 1).headD []) with
        | some pid, some ppid =>
          if command.isEmpty then processInfoLines ls acc
          else
            processInfoLines ls
              (jsMapSet acc pid { command := String.mk command, ppid := ppid })
        | _, _ => processInfoLines ls acc

def parseProcessInfo (output : String) : List (Int × ProcInfo) :=
  processInfoLines (splitOnChar '\n' (jsTrim output.data)) []

/-! ## Enricher (`mergeCwdWithPorts` of `lsof-parser.ts`) -/

/-- The dedupe key `` `${pid}:${port}` ``. -/
def keyOf (pid port : Int) : String :=
  toString pid ++ ":" ++ toString port

/-- `parentCmd.split('/').pop()?.split(' ')[0] ?? 'Unknown'` — the
executable display name of a parent command.  The `'Unknown'` fallbacks
are dead code (a JS `split` never yields an empty array) but are kept
for fidelity. -/
def parentExecOf (cmd : Chars) : Chars :=
  match (splitOnChar '/' cmd).getLast? with
  | none => "Unknown".data
  | some last =>
    match (splitOnChar ' ' last).head? with
    | none => "Unknown".data
    | some x => x

/-- Enrichment of one raw record inside the merge loop (the body that
builds the pushed `IPortInfo`). -/
def enrichDarwin (cwdMap : List (Int × String))
    (processInfoMap : List (Int × ProcInfo))
    (parentCommandMap : List (Int × String)) (raw : RawPortInfo) : IPortInfo :=
  let pi := jsMapGet processInfoMap raw.pid
  let ppid := match pi with
    | some p => p.ppid
    | none => 0
  let parentCmd := (jsMapGet parentCommandMap ppid).getD ""
  { pid := raw.pid
    port := raw.port
    command := match pi with
      | some p => p.command
      | none => raw.command
    directory := (jsMapGet cwdMap raw.pid).getD "Unknown"
    protocol := raw.protocol
    parentPid := ppid
    parentCommand := String.mk (parentExecOf parentCmd.data) }

/-- The merge loop of `mergeCwdWithPorts`, threading the `seen` key set. -/
def mergeGo (cwdMap : List (Int × String)) (processInfoMap : List (Int × ProcInfo))
    (parentCommandMap : List (Int × String)) (seen : List String) :
    List RawPortInfo → List IPortInfo
  | [] => []
  | r :: rest =>
    let key := keyOf r.pid r.port
    if key ∈ seen then mergeGo cwdMap processInfoMap parentCommandMap seen rest
    else
      enrichDarwin cwdMap processInfoMap parentCommandMap r ::
        mergeGo cwdMap processInfoMap parentCommandMap (key :: seen) rest

/-- `mergeCwdWithPorts` of `lsof-parser.ts`. -/
def mergeCwdWithPorts (rawPorts : List RawPortInfo) (cwdMap : List (Int × String))
    (processInfoMap : List (Int × ProcInfo))
    (parentCommandMap : List (Int × String)) : List IPortInfo :=
  mergeGo cwdMap processInfoMap parentCommandMap [] rawPorts

/-- Specification-side first-occurrence filter on the `(pid, port)` key:
"first occurrence wins, preserving the original record order". -/
def firstByKeyGo (seen : List String) : List RawPortInfo → List RawPortInfo
  | [] => []
  | r :: rest =>
    let key := keyOf r.pid r.port
    if key ∈ seen then firstByKeyGo seen rest
    else r :: firstByKeyGo (key :: seen) rest

def firstByKey (l : List RawPortInfo) : List RawPortInfo :=
  firstByKeyGo [] l

/-! ## Linux parsers (`scanner-linux.ts`) -/

/-- Character class `[\d.*:]` of the ss/netstat address regexes. -/
def ssC (c : Char) : Bool :=
  c.isDigit || c = '.' || c = '*' || c = ':'

/-- Consume `\s+`: at least one whitespace character, maximally. -/
def eatWs1 (cs : Chars) : Option Chars :=
  if (cs.takeWhile isWs).isEmpty then none else some (cs.dropWhile isWs)

/-- Consume `\d+`: at least one digit, maximally. -/
def eatDigits1 (cs : Chars) : Option Chars :=
  if (cs.takeWhile Char.isDigit).isEmpty then none
  else some (cs.dropWhile Char.isDigit)

/-- Tail pattern `users:\(\("([^"]+)",pid=(\d+)` of the ss regex, tried at
one position; returns the command and PID-digit captures. -/
def usersAt (cs : Chars) : Option (Chars × Chars) :=
  if ("users:((\"".data).isPrefixOf cs then
    let r := cs.drop 9
    let q := r.takeWhile (fun c => c ≠ '"')
    if q.isEmpty then none
    else
      match r.drop q.length with
      | '"' :: r2 =>
        if (",pid=".data).isPrefixOf r2 then
          let ds := (r2.drop 5).takeWhile Char.isDigit
          if ds.isEmpty then none else some (q, ds)
        else none
      | _ => none
  else none

/-- Attempt the ss regex
`LISTEN\s+\d+\s+\d+\s+[\d.*:]+:(\d+)\s+.*users:\(\("([^"]+)",pid=(\d+)`
at the start of the input; returns (port digits, command, pid digits).
The greedy `.*` makes the engine prefer the rightmost position at which
the `users:...` tail matches, hence `searchLast`. -/
def ssLineAt (cs : Chars) : Option (Chars × Chars × Chars) :=
  if ("LISTEN".data).isPrefixOf cs then
    match eatWs1 (cs.drop 6) with
    | none => none
    | some r2 =>
      match eatDigits1 r2 with
      | none => none
      | some r3 =>
        match eatWs1 r3 with
        | none => none
        | some r4 =>
          match eatDigits1 r4 with
          | none => none
          | some r5 =>
            match eatWs1 r5 with
            | none => none
            | some r6 =>
              let run := r6.takeWhile ssC
              match splitPortRun run with
              | none => none
              | some (_, portD) =>
                match r6.drop run.length with
                | [] => none
                | c :: rest =>
                  if isWs c then
                    (searchLast usersAt rest).map
                      (fun p => (portD, p.1, p.2))
                  else none
  else none

/-- Attempt the netstat fallback regex
`^tcp\s+\d+\s+\d+\s+[\d.*:]+:(\d+)\s+[\d.*:]+:\*\s+LISTEN\s+(\d+)\/(.+)`
(anchored at the start); returns (port digits, pid digits, command). -/
def netstatLinuxAt (cs : Chars) : Option (Chars × Chars × Chars) :=
  if ("tcp".data).isPrefixOf cs then
    match eatWs1 (cs.drop 3) with
    | none => none
    | some r2 =>
      match eatDigits1 r2 with
      | none => none
      | some r3 =>
        match eatWs1 r3 with
        | none => none
        | some r4 =>
          match eatDigits1 r4 with
          | none => none
          | some r5 =>
            match eatWs1 r5 with
            | none => none
            | some r6 =>
              let run := r6.takeWhile ssC
              match splitPortRun run with
              | none => none
              | some (_, portD) =>
                match eatWs1 (r6.drop run.length) with
                | none => none
                | some r8 =>
                  let run2 := r8.takeWhile ssC
                  match run2.reverse with
                  | '*' :: ':' :: p2rev =>
                    if p2rev.isEmpty then none
                    else
                      match eatWs1 (r8.drop run2.length) with
                      | none => none
                      | some r10 =>
                        if ("LISTEN".data).isPrefixOf r10 then
                          match eatWs1 (r10.drop 6) with
                          | none => none
                          | some r12 =>
                            let pidD := r12.takeWhile Char.isDigit
                            if pidD.isEmpty then none
                            else
                              match r12.drop pidD.length with
                              | '/' :: cmd =>
                                if cmd.isEmpty then none
                                else some (portD, pidD, cmd)
                              | _ => none
                        else none
                  | _ => none
  else none

/-- Line loop of `parseSsOutput` of `scanner-linux.ts`: skip empty lines
and the `State`/`Proto` headers, try the ss regex (leftmost match), then
the anchored netstat regex. -/
def ssLines : List Chars → List IPortInfo
  | [] => []
  | l :: ls =>
    let trimmed := jsTrim l
    if trimmed.isEmpty || ("State".data).isPrefixOf trimmed
        || ("Proto".data).isPrefixOf trimmed then
      ssLines ls
    else
      match searchFirst ssLineAt trimmed with
      | some (portD, cmd, pidD) =>
        { pid := (digitsToNat pidD : Int)
          port := (digitsToNat portD : Int)
          command := String.mk cmd
          directory := "Unknown"
          protocol := Protocol.TCP
          parentPid := 0
          parentCommand := "" } :: ssLines ls
      | none =>
        match netstatLinuxAt trimmed with
        | some (portD, pidD, cmd) =>
          { pid := (digitsToNat pidD : Int)
            port := (digitsToNat portD : Int)
            command := String.mk cmd
            directory := "Unknown"
            protocol := Protocol.TCP
            parentPid := 0
            parentCommand := "" } :: ssLines ls
        | none => ssLines ls

def parseSsOutput (output : String) : List IPortInfo :=
  ssLines (splitOnChar '\n' (jsTrim output.data))

/-! ## Windows parsers (`scanner-windows.ts`) -/

/-- Regex `/:(\d+)$/` on an address token: trailing digit run preceded by
a colon. -/
def portSuffix (cs : Chars) : Option Chars :=
  let rev := cs.reverse
  let ds := rev.takeWhile Char.isDigit
  if ds.isEmpty then none
  else
    match rev.drop ds.length with
    | ':' :: _ => some ds.reverse
    | _ => none

/-- Line loop of `parseNetstatOutput` of `scanner-windows.ts`.  Every
accepted record's command is initialized to the placeholder
`` `PID:${pid}` ``. -/
def netstatWinLines : List Chars → List IPortInfo
  | [] => []
  | l :: ls =>
    let trimmed := jsTrim l
    if trimmed.isEmpty then netstatWinLines ls
    else
      let parts := wsSplitTrimmed trimmed
      if parts.length < 5 then netstatWinLines ls
      else
        let protoUp := (parts.headD []).map Char.toUpper
        if protoUp = "TCP".data || protoUp = "UDP".data then
          let localAddress := (parts.drop 1).headD []
          let state := (parts.drop 3).headD []
          match jsParseInt ((parts.drop 4).headD []) with
          | none => netstatWinLines ls
          | some pid =>
            if state = "LISTENING".data then
              match portSuffix localAddress with
              | none => netstatWinLines ls
              | some portD =>
                { pid := pid
                  port := (digitsToNat portD : Int)
                  command := "PID:" ++ toString pid
                  directory := "Unknown"
                  protocol := if protoUp = "TCP".data then Protocol.TCP else Protocol.UDP
                  parentPid := 0
                  parentCommand := "" } :: netstatWinLines ls
            else netstatWinLines ls
        else netstatWinLines ls

def parseNetstatOutput (output : String) : List IPortInfo :=
  netstatWinLines (splitOnChar '\n' (jsTrim output.data))

/-- Line loop of `parseWmicOutput` of `scanner-windows.ts`
(CSV `Node,CommandLine,ParentProcessId,ProcessId`). -/
def wmicLines : List Chars → List (Int × ProcInfo) → List (Int × ProcInfo)
  | [], acc => acc
  | l :: ls, acc =>
    if containsSub [','] l then
      let parts := splitOnChar ',' l
      if parts.length < 4 then wmicLines ls acc
      else
        let commandLine := ((parts.drop 1).headD []).filter (fun c => c ≠ '"')
        let ppid := jsParseInt ((parts.drop 2).headD [])
        let pid := jsParseInt ((parts.drop 3).headD [])
        match pid with
        | some p =>
          if commandLine.isEmpty then wmicLines ls acc
          else
            wmicLines ls (jsMapSet acc p
              { command := String.mk commandLine
                ppid := match ppid with
                  | some q => q
                  | none => 0 })
        | none => wmicLines ls acc
    else wmicLines ls acc

def parseWmicOutput (output : String) (m : List (Int × ProcInfo)) :
    List (Int × ProcInfo) :=
  wmicLines (splitOnChar '\n' (jsTrim output.data)) m

/-- Line loop of `parseTasklistOutput` of `scanner-windows.ts`
(CSV `"Image Name","PID",...`; parent PID not available, stored as 0).
Note the source does not require the image name to be nonempty. -/
def tasklistLines (pids : List Int) :
    List Chars → List (Int × ProcInfo) → List (Int × ProcInfo)
  | [], acc => acc
  | l :: ls, acc =>
    if containsSub [','] l then
      let parts := (splitOnChar ',' l).map (fun p => p.filter (fun c => c ≠ '"'))
      if parts.length < 2 then tasklistLines pids ls acc
      else
        let imageName := parts.headD []
        match jsParseInt ((parts.drop 1).headD []) with
        | some pid =>
          if pid ∈ pids then
            tasklistLines pids ls
              (jsMapSet acc pid { command := String.mk imageName, ppid := 0 })
          else tasklistLines pids ls acc
        | none => tasklistLines pids ls acc
    else tasklistLines pids ls acc

def parseTasklistOutput (output : String) (pids : List Int)
    (m : List (Int × ProcInfo)) : List (Int × ProcInfo) :=
  tasklistLines pids (splitOnChar '\n' (jsTrim output.data)) m

/-- Line loop of `parseWmicParentOutput` of `scanner-windows.ts`
(CSV `Node,CommandLine,ProcessId`). -/
def wmicParentLines : List Chars → List (Int × String) → List (Int × String)
  | [], acc => acc
  | l :: ls, acc =>
    if containsSub [','] l then
      let parts := splitOnChar ',' l
      if parts.length < 3 then wmicParentLines ls acc
      else
        let commandLine := ((parts.drop 1).headD []).filter (fun c => c ≠ '"')
        match jsParseInt ((parts.drop 2).headD []) with
        | some pid =>
          if commandLine.isEmpty then wmicParentLines ls acc
          else wmicParentLines ls (jsMapSet acc pid (String.mk commandLine))
        | none => wmicParentLines ls acc
    else wmicParentLines ls acc

def parseWmicParentOutput (output : String) (m : List (Int × String)) :
    List (Int × String) :=
  wmicParentLines (splitOnChar '\n' (jsTrim output.data)) m

/-! ## Result taxonomy (`shared/types.ts`) and scanner orchestration -/

inductive Result (α ε : Type) where
  | success (data : α)
  | failure (error : ε)
deriving DecidableEq, Repr

inductive ScanError where
  | commandFailed (message : String)
  | parseError (message : String)
  | timeout (message : String)
deriving DecidableEq, Repr

inductive KillError where
  | notFound (pid : Int)
  | permissionDenied (pid : Int)
  | unknown (message : String)
deriving DecidableEq, Repr

abbrev ScanResult := Result (List IPortInfo) ScanError

/-- Outcome of one timed external command invocation: captured stdout,
or a thrown execution error whose `killed` flag marks a timeout. -/
inductive ExecOutcome where
  | ok (stdout : String)
  | fail (killed : Bool) (message : String)
deriving DecidableEq, Repr

/-- One external effect performed by a scanner: a shell command with its
timeout, or a `/proc/<pid>/cwd` symlink read. -/
inductive Invocation where
  | run (cmd : String) (timeoutMs : Nat)
  | readlinkCwd (pid : Int)
deriving DecidableEq, Repr

/-- `TIMEOUTS.LSOF_COMMAND` of `shared/constants.ts`. -/
def LSOF_COMMAND_TIMEOUT : Nat := 5000

/-- `TIMEOUTS.KILL_SIGTERM` of `shared/constants.ts`. -/
def KILL_SIGTERM_TIMEOUT : Nat := 3000

def joinComma (pids : List Int) : String :=
  String.intercalate "," (pids.map toString)

/-- The shared step-4 parse loop (`pid` before the first space, the rest
trimmed as the command), inlined identically in `port-scanner.ts` and
`scanner-linux.ts`. -/
def parentPsLines : List Chars → List (Int × String) → List (Int × String)
  | [], acc => acc
  | l :: ls, acc =>
    let trimmed := jsTrim l
    if trimmed.isEmpty then parentPsLines ls acc
    else
      match trimmed.findIdx? (fun c => c = ' ') with
      | none => parentPsLines ls acc
      | some firstSpace =>
        let cmd := jsTrim (trimmed.drop (firstSpace + 1))
        match jsParseInt (trimmed.take firstSpace) with
        | some pid =>
          if cmd.isEmpty then parentPsLines ls acc
          else parentPsLines ls (jsMapSet acc pid (String.mk cmd))
        | none => parentPsLines ls acc

def parseParentPs (output : String) : List (Int × String) :=
  parentPsLines (splitOnChar '\n' (jsTrim output.data)) []

/-! ### macOS pipeline (`scanPortsDarwin` of `port-scanner.ts`) -/

def darwinCmd1 : String := "lsof -iTCP -sTCP:LISTEN -n -P +c 0"

def darwinCwdCmd (pids : List Int) : String :=
  "lsof -d cwd -a -p " ++ joinComma pids

def darwinPsCmd (pids : List Int) : String :=
  "ps -p " ++ joinComma pids ++ " -o pid=,ppid=,command="

def darwinParentPsCmd (pids : List Int) : String :=
  "ps -p " ++ joinComma pids ++ " -o pid=,command="

/-- `scanPortsDarwin`, shallowly embedded: the executor is an oracle from
command strings to outcomes; the second component records every external
invocation, in order.  Step-2/3/4 failures are caught locally (the
`catch {}` blocks) and leave the respective map empty. -/
def scanPortsDarwinModel (exec : String → ExecOutcome) :
    ScanResult × List Invocation :=
  match exec darwinCmd1 with
  | .fail killed msg =>
    (if killed then .failure (.timeout "lsof command timed out")
     else .failure (.commandFailed msg),
     [.run darwinCmd1 LSOF_COMMAND_TIMEOUT])
  | .ok portOutput =>
    let rawPorts := parseLsofOutput portOutput
    if rawPorts.length = 0 then
      (.success [], [.run darwinCmd1 LSOF_COMMAND_TIMEOUT])
    else
      let uniquePids := dedupFirstInt (rawPorts.map (fun p => p.pid))
      let cwdMap := match exec (darwinCwdCmd uniquePids) with
        | .ok o => parseCwdOutput o
        | .fail _ _ => []
      let processInfoMap := match exec (darwinPsCmd uniquePids) with
        | .ok o => parseProcessInfo o
        | .fail _ _ => []
      let parentPids :=
        dedupFirstInt ((processInfoMap.map (fun p => p.2.ppid)).filter (fun p => 0 < p))
      let parentCommandMap :=
        if 0 < parentPids.length then
          match exec (darwinParentPsCmd parentPids) with
          | .ok o => parseParentPs o
          | .fail _ _ => []
        else []
      (.success (mergeCwdWithPorts rawPorts cwdMap processInfoMap parentCommandMap),
       [.run darwinCmd1 LSOF_COMMAND_TIMEOUT,
        .run (darwinCwdCmd uniquePids) LSOF_COMMAND_TIMEOUT,
        .run (darwinPsCmd uniquePids) LSOF_COMMAND_TIMEOUT] ++
       (if 0 < parentPids.length then
          [Invocation.run (darwinParentPsCmd parentPids) LSOF_COMMAND_TIMEOUT]
        else []))

/-! ### Linux pipeline (`scanPortsLinux` of `scanner-linux.ts`) -/

def linuxCmd1 : String := "ss -tlnp 2>/dev/null || netstat -tlnp 2>/dev/null"

def linuxPsCmd (pids : List Int) : String :=
  "ps -p " ++ joinComma pids ++ " -o pid=,ppid=,args= 2>/dev/null"

def linuxParentPsCmd (pids : List Int) : String :=
  "ps -p " ++ joinComma pids ++ " -o pid=,args= 2>/dev/null"

/-- Step 2 of the Linux scanner: one `readlink(/proc/<pid>/cwd)` per
distinct PID, each failure independently ignored. -/
def linuxCwdFold (readlinkFn : Int → Option String) :
    List Int → List (Int × String) → List (Int × String)
  | [], acc => acc
  | p :: ps, acc =>
    match readlinkFn p with
    | some c => linuxCwdFold readlinkFn ps (jsMapSet acc p c)
    | none => linuxCwdFold readlinkFn ps acc

/-- Step 5 of the Linux scanner: per-record enrichment (note: no
deduplication; `||` is JS falsy choice). -/
def linuxMergeEntry (cwdMap : List (Int × String))
    (processInfoMap : List (Int × ProcInfo))
    (parentCommandMap : List (Int × String)) (port : IPortInfo) : IPortInfo :=
  let pi := jsMapGet processInfoMap port.pid
  let parentPid := match pi with
    | some p => p.ppid
    | none => 0
  { port with
    command := jsOrString (pi.map (fun p => p.command)) port.command
    directory := jsOrString (jsMapGet cwdMap port.pid) "Unknown"
    parentPid := parentPid
    parentCommand := jsOrString (jsMapGet parentCommandMap parentPid) "" }

/-- `scanPortsLinux`, shallowly embedded; `readlinkFn` is the
`readlink('/proc/<pid>/cwd')` oracle (`none` = the read throws). -/
def scanPortsLinuxModel (exec : String → ExecOutcome)
    (readlinkFn : Int → Option String) : ScanResult × List Invocation :=
  match exec linuxCmd1 with
  | .fail killed msg =>
    (if killed then .failure (.timeout "ss command timed out")
     else .failure (.commandFailed msg),
     [.run linuxCmd1 LSOF_COMMAND_TIMEOUT])
  | .ok ssOutput =>
    let ports := parseSsOutput ssOutput
    if ports.length = 0 then
      (.success [], [.run linuxCmd1 LSOF_COMMAND_TIMEOUT])
    else
      let uniquePids := dedupFirstInt (ports.map (fun p => p.pid))
      let cwdMap := linuxCwdFold readlinkFn uniquePids []
      let processInfoMap := match exec (linuxPsCmd uniquePids) with
        | .ok o => parseProcessInfo o
        | .fail _ _ => []
      let parentPids :=
        dedupFirstInt ((processInfoMap.map (fun p => p.2.ppid)).filter (fun p => 0 < p))
      let parentCommandMap :=
        if 0 < parentPids.length then
          match exec (linuxParentPsCmd parentPids) with
          | .ok o => parseParentPs o
          | .fail _ _ => []
        else []
      (.success (ports.map (linuxMergeEntry cwdMap processInfoMap parentCommandMap)),
       [.run linuxCmd1 LSOF_COMMAND_TIMEOUT] ++
       uniquePids.map (fun p => Invocation.readlinkCwd p) ++
       [.run (linuxPsCmd uniquePids) LSOF_COMMAND_TIMEOUT] ++
       (if 0 < parentPids.length then
          [Invocation.run (linuxParentPsCmd parentPids) LSOF_COMMAND_TIMEOUT]
        else []))

/-! ### Windows pipeline (`scanPortsWindows` of `scanner-windows.ts`) -/

def winCmd1 : String := "netstat -ano | findstr LISTENING"

def winWmicCmd (pids : List Int) : String :=
  "wmic process where \"ProcessId=" ++
    String.intercalate " or ProcessId=" (pids.map toString) ++
    "\" get ProcessId,ParentProcessId,CommandLine /format:csv"

def winTasklistCmd : String := "tasklist /fo csv /v"

def winWmicParentCmd (pids : List Int) : String :=
  "wmic process where \"ProcessId=" ++
    String.intercalate " or ProcessId=" (pids.map toString) ++
    "\" get ProcessId,CommandLine /format:csv"

/-- Step 2 of the Windows scanner: the wmic query, falling back to
`tasklist` only when the wmic invocation throws; both failing leaves the
map empty.  Also returns the invocations performed. -/
def windowsProcessInfoMap (exec : String → ExecOutcome) (uniquePids : List Int) :
    List (Int × ProcInfo) × List Invocation :=
  match exec (winWmicCmd uniquePids) with
  | .ok o =>
    (parseWmicOutput o [], [.run (winWmicCmd uniquePids) LSOF_COMMAND_TIMEOUT])
  | .fail _ _ =>
    match exec winTasklistCmd with
    | .ok o =>
      (parseTasklistOutput o uniquePids [],
       [.run (winWmicCmd uniquePids) LSOF_COMMAND_TIMEOUT,
        .run winTasklistCmd LSOF_COMMAND_TIMEOUT])
    | .fail _ _ =>
      ([], [.run (winWmicCmd uniquePids) LSOF_COMMAND_TIMEOUT,
            .run winTasklistCmd LSOF_COMMAND_TIMEOUT])

/-- Step 4 of the Windows scanner: per-record enrichment (no
deduplication; directory is always `"Unknown"` on Windows). -/
def winMergeEntry (processInfoMap : List (Int × ProcInfo))
    (parentCommandMap : List (Int × String)) (port : IPortInfo) : IPortInfo :=
  let pi := jsMapGet processInfoMap port.pid
  let parentPid := match pi with
    | some p => p.ppid
    | none => 0
  { port with
    command := jsOrString (pi.map (fun p => p.command)) port.command
    directory := "Unknown"
    parentPid := parentPid
    parentCommand := jsOrString (jsMapGet parentCommandMap parentPid) "" }

/-- `scanPortsWindows`, shallowly embedded. -/
def scanPortsWindowsModel (exec : String → ExecOutcome) :
    ScanResult × List Invocation :=
  match exec winCmd1 with
  | .fail killed msg =>
    (if killed then .failure (.timeout "netstat command timed out")
     else .failure (.commandFailed msg),
     [.run winCmd1 LSOF_COMMAND_TIMEOUT])
  | .ok netstatOutput =>
    let ports := parseNetstatOutput netstatOutput
    if ports.length = 0 then
      (.success [], [.run winCmd1 LSOF_COMMAND_TIMEOUT])
    else
      let uniquePids := dedupFirstInt (ports.map (fun p => p.pid))
      let step2 := windowsProcessInfoMap exec uniquePids
      let processInfoMap := step2.1
      let parentPids :=
        dedupFirstInt ((processInfoMap.map (fun p => p.2.ppid)).filter (fun p => 0 < p))
      let parentCommandMap :=
        if 0 < parentPids.length then
          match exec (winWmicParentCmd parentPids) with
          | .ok o => parseWmicParentOutput o []
          | .fail _ _ => []
        else []
      (.success (ports.map (winMergeEntry processInfoMap parentCommandMap)),
       [.run winCmd1 LSOF_COMMAND_TIMEOUT] ++ step2.2 ++
       (if 0 < parentPids.length then
          [Invocation.run (winWmicParentCmd parentPids) LSOF_COMMAND_TIMEOUT]
        else []))

/-! ## Process manager (`process-manager.ts`, Unix protocol) -/

/-- Signals sent through the injected `killFn` (signal `0` is the
zero-effect existence probe). -/
inductive Sig where
  | sigterm
  | sigkill
  | sigzero
deriving DecidableEq, Repr

/-- Error codes thrown by `process.kill`. -/
inductive ECode where
  | esrch
  | eperm
  | other (msg : String)
deriving DecidableEq, Repr

abbrev KillResult := Result Unit KillError

/-- Outcome of one `waitForProcessExit` polling window. -/
inductive WaitOutcome where
  | exited
  | timedOut
  | errored (e : ECode)
deriving DecidableEq, Repr

/-- `waitForProcessExit`, shallowly embedded.  `oracle i s` is the
outcome of the i-th `killFn` call of the whole run (`none` = returns,
`some e` = throws `e`); `fuel` is the number of times the
`Date.now() - startTime < timeoutMs` guard passes (at least one for a
positive timeout; at most `timeoutMs / 100` plus one, given the 100 ms
sleep per iteration).  Returns the window outcome, the next call index
and the probe calls made. -/
def waitForProcessExitModel (oracle : Nat → Sig → Option ECode) :
    Nat → Nat → WaitOutcome × Nat × List Sig
  | idx, 0 => (.timedOut, idx, [])
  | idx, fuel + 1 =>
    match oracle idx Sig.sigzero with
    | none =>
      let r := waitForProcessExitModel oracle (idx + 1) fuel
      (r.1, r.2.1, Sig.sigzero :: r.2.2)
    | some ECode.esrch => (.exited, idx + 1, [Sig.sigzero])
    | some e => (.errored e, idx + 1, [Sig.sigzero])

/-- The `catch` mapping of `killProcessUnix`: `ESRCH ↦ NOT_FOUND`,
`EPERM ↦ PERMISSION_DENIED`, anything else `↦ UNKNOWN`. -/
def mapECode (pid : Int) : ECode → KillError
  | .esrch => .notFound pid
  | .eperm => .permissionDenied pid
  | .other m => .unknown m

/-- `killProcessUnix`, shallowly embedded.  Returns the result and the
trace of signals sent (`sigterm`, the `sigzero` probes, possibly
`sigkill`, then the bounded second probe window).  Errors of the
`SIGKILL` send and of the second wait are swallowed by the inner
`catch`; after escalation the result is success unconditionally. -/
def killProcessUnixModel (pid : Int) (oracle : Nat → Sig → Option ECode)
    (gracefulFuel forcefulFuel : Nat) : KillResult × List Sig :=
  match oracle 0 Sig.sigterm with
  | some e => (.failure (mapECode pid e), [Sig.sigterm])
  | none =>
    let w := waitForProcessExitModel oracle 1 gracefulFuel
    match w.1 with
    | .exited => (.success (), Sig.sigterm :: w.2.2)
    | .errored e => (.failure (mapECode pid e), Sig.sigterm :: w.2.2)
    | .timedOut =>
      match oracle w.2.1 Sig.sigkill with
      | some _ => (.success (), Sig.sigterm :: w.2.2 ++ [Sig.sigkill])
      | none =>
        let w2 := waitForProcessExitModel oracle (w.2.1 + 1) forcefulFuel
        (.success (), Sig.sigterm :: w.2.2 ++ [Sig.sigkill] ++ w2.2.2)

/-! ## Polling manager (`polling-manager.ts`) -/

/-- Mutable state of the polling manager: whether the repeating timer is
armed, the current interval, and the subscriber list (subscribers
modelled by identifiers, in registration order). -/
structure PMState where
  running : Bool
  intervalMs : Nat
  listeners : List Nat
deriving DecidableEq, Repr

/-- `fetchAndNotify`: given the scan result of this tick, returns the
(untouched) state and the notifications delivered — one per registered
subscriber, in registration order, on success; none on failure. -/
def fetchAndNotify (st : PMState) (result : ScanResult) :
    PMState × List (Nat × List IPortInfo) :=
  (st,
   match result with
   | .success data => st.listeners.map (fun id => (id, data))
   | .failure _ => [])

def startPM (st : PMState) : PMState :=
  if st.running then st else { st with running := true }

def stopPM (st : PMState) : PMState :=
  { st with running := false }

def setIntervalPM (st : PMState) (ms : Nat) : PMState :=
  { st with intervalMs := ms }

def onUpdatePM (st : PMState) (id : Nat) : PMState :=
  { st with listeners := st.listeners ++ [id] }

/-- A sequence of timer ticks: each tick invokes the scanner (consuming
the next result of the oracle list) and runs `fetchAndNotify`. -/
def runTicks (st : PMState) :
    List ScanResult → PMState × List (List (Nat × List IPortInfo))
  | [] => (st, [])
  | r :: rs =>
    let t := fetchAndNotify st r
    let rest := runTicks t.1 rs
    (rest.1, t.2 :: rest.2)

/-! ## Helper lemmas -/

theorem splitOnChar_ne_nil (sep : Char) (cs : Chars) : splitOnChar sep cs ≠ [] := by
  induction cs with
  | nil => simp [splitOnChar]
  | cons c cs ih =>
    simp only [splitOnChar]
    by_cases h : c = sep
    · simp [h]
    · simp only [if_neg h]
      cases hr : splitOnChar sep cs with
      | nil => exact absurd hr ih
      | cons t ts => simp

theorem not_sep_mem_of_mem_splitOnChar (sep : Char) (cs : Chars) :
    ∀ p ∈ splitOnChar sep cs, sep ∉ p := by
  induction cs with
  | nil =>
    intro p hp
    simp only [splitOnChar, List.mem_singleton] at hp
    simp [hp]
  | cons c cs ih =>
    intro p hp
    simp only [splitOnChar] at hp
    by_cases h : c = sep
    · rw [if_pos h] at hp
      rcases List.mem_cons.mp hp with rfl | hmem
      · simp
      · exact ih p hmem
    · rw [if_neg h] at hp
      cases hr : splitOnChar sep cs with
      | nil => exact absurd hr (splitOnChar_ne_nil sep cs)
      | cons t ts =>
        rw [hr] at hp
        rcases List.mem_cons.mp hp with rfl | hmem
        · intro hmem2
          rcases List.mem_cons.mp hmem2 with heq | hint
          · exact h heq.symm
          · exact ih t (hr ▸ List.mem_cons_self t ts) hint
        · exact ih p (hr ▸ List.mem_cons_of_mem t hmem)

theorem mem_of_mem_splitOnChar (sep : Char) (cs : Chars) :
    ∀ p ∈ splitOnChar sep cs, ∀ x ∈ p, x ∈ cs := by
  induction cs with
  | nil =>
    intro p hp x hx
    simp only [splitOnChar, List.mem_singleton] at hp
    subst hp
    simp at hx
  | cons c cs ih =>
    intro p hp x hx
    simp only [splitOnChar] at hp
    by_cases h : c = sep
    · rw [if_pos h] at hp
      rcases List.mem_cons.mp hp with rfl | hmem
      · simp at hx
      · exact List.mem_cons_of_mem c (ih p hmem x hx)
    · rw [if_neg h] at hp
      cases hr : splitOnChar sep cs with
      | nil => exact absurd hr (splitOnChar_ne_nil sep cs)
      | cons t ts =>
        rw [hr] at hp
        rcases List.mem_cons.mp hp with rfl | hmem
        · rcases List.mem_cons.mp hx with rfl | hxt
          · exact List.mem_cons_self x cs
          · exact List.mem_cons_of_mem c
              (ih t (hr ▸ List.mem_cons_self t ts) x hxt)
        · exact List.mem_cons_of_mem c
            (ih p (hr ▸ List.mem_cons_of_mem t hmem) x hx)

theorem mem_of_head?_eq (a : Chars) :
    ∀ {xs : List Chars}, xs.head? = some a → a ∈ xs := by
  intro xs h
  cases xs with
  | nil => simp at h
  | cons x rest =>
    simp only [List.head?_cons, Option.some.injEq] at h
    simp [h]

/-- The parent-executable extraction never contains a path separator or
a space (it is the first word of the last `/`-segment). -/
theorem parentExecOf_no_slash_no_space (cmd : Chars) :
    '/' ∉ parentExecOf cmd ∧ ' ' ∉ parentExecOf cmd := by
  unfold parentExecOf
  cases hl : (splitOnChar '/' cmd).getLast? with
  | none => constructor <;> decide
  | some last =>
    dsimp only
    cases hh : (splitOnChar ' ' last).head? with
    | none => constructor <;> decide
    | some x =>
      dsimp only
      have hlast : last ∈ splitOnChar '/' cmd := List.mem_of_getLast?_eq_some hl
      have hx : x ∈ splitOnChar ' ' last := mem_of_head?_eq x hh
      constructor
      · intro hmem
        exact not_sep_mem_of_mem_splitOnChar '/' cmd last hlast
          (mem_of_mem_splitOnChar ' ' last x hx '/' hmem)
      · exact not_sep_mem_of_mem_splitOnChar ' ' last x hx

theorem parentExecOf_nil : parentExecOf [] = [] := rfl

/-- The merge loop is the enrichment map over the first-occurrence
filter. -/
theorem mergeGo_eq_map_firstByKeyGo (c : List (Int × String))
    (p : List (Int × ProcInfo)) (q : List (Int × String)) :
    ∀ (raw : List RawPortInfo) (seen : List String),
      mergeGo c p q seen raw = (firstByKeyGo seen raw).map (enrichDarwin c p q) := by
  intro raw
  induction raw with
  | nil => intro seen; rfl
  | cons r rest ih =>
    intro seen
    simp only [mergeGo, firstByKeyGo]
    by_cases h : keyOf r.pid r.port ∈ seen
    · simp only [if_pos h]
      exact ih seen
    · simp only [if_neg h, List.map_cons]
      rw [ih (keyOf r.pid r.port :: seen)]

/-- The first-occurrence filter emits pairwise distinct keys, none of
them already seen. -/
theorem firstByKeyGo_spec :
    ∀ (l : List RawPortInfo) (seen : List String),
      ((firstByKeyGo seen l).map (fun r => keyOf r.pid r.port)).Nodup ∧
        ∀ r ∈ firstByKeyGo seen l, keyOf r.pid r.port ∉ seen := by
  intro l
  induction l with
  | nil => intro seen; exact ⟨List.nodup_nil, by simp [firstByKeyGo]⟩
  | cons r rest ih =>
    intro seen
    simp only [firstByKeyGo]
    by_cases h : keyOf r.pid r.port ∈ seen
    · simpa [h] using ih seen
    · simp only [if_neg h]
      obtain ⟨ihn, ihs⟩ := ih (keyOf r.pid r.port :: seen)
      refine ⟨?_, ?_⟩
      · simp only [List.map_cons, List.nodup_cons]
        refine ⟨?_, ihn⟩
        intro hmem
        rcases List.mem_map.mp hmem with ⟨r', hr', hkey⟩
        exact ihs r' hr' (hkey ▸ List.mem_cons_self _ _)
      · intro r' hr'
        rcases List.mem_cons.mp hr' with rfl | hmem
        · exact h
        · intro hs
          exact ihs r' hmem (List.mem_cons_of_mem _ hs)

theorem enrichDarwin_pid (c : List (Int × String)) (p : List (Int × ProcInfo))
    (q : List (Int × String)) (r : RawPortInfo) :
    (enrichDarwin c p q r).pid = r.pid := rfl

theorem enrichDarwin_port (c : List (Int × String)) (p : List (Int × ProcInfo))
    (q : List (Int × String)) (r : RawPortInfo) :
    (enrichDarwin c p q r).port = r.port := rfl

/-- Entries produced by the darwin merge have pairwise distinct
`(pid, port)` pairs. -/
theorem mergeCwdWithPorts_pairs_nodup (raw : List RawPortInfo)
    (c : List (Int × String)) (p : List (Int × ProcInfo))
    (q : List (Int × String)) :
    ((mergeCwdWithPorts raw c p q).map (fun e => (e.pid, e.port))).Nodup := by
  unfold mergeCwdWithPorts
  rw [mergeGo_eq_map_firstByKeyGo, List.map_map]
  have hfun : ((fun e : IPortInfo => (e.pid, e.port)) ∘ enrichDarwin c p q) =
      (fun r : RawPortInfo => (r.pid, r.port)) := by
    funext r
    simp [Function.comp, enrichDarwin_pid, enrichDarwin_port]
  rw [hfun]
  have h1 := (firstByKeyGo_spec raw []).1
  have h2 : (firstByKeyGo [] raw).map (fun r => keyOf r.pid r.port) =
      ((firstByKeyGo [] raw).map (fun r : RawPortInfo => (r.pid, r.port))).map
        (fun ab : Int × Int => keyOf ab.1 ab.2) := by
    rw [List.map_map]
    rfl
  rw [h2] at h1
  exact h1.of_map _

theorem enrichDarwin_directory_nil (p : List (Int × ProcInfo))
    (q : List (Int × String)) (r : RawPortInfo) :
    (enrichDarwin [] p q r).directory = "Unknown" := rfl

/-- With an empty directory map every merged entry's directory is the
`"Unknown"` sentinel. -/
theorem mem_merge_directory_unknown (raw : List RawPortInfo)
    (p : List (Int × ProcInfo)) (q : List (Int × String)) :
    ∀ e ∈ mergeCwdWithPorts raw [] p q, e.directory = "Unknown" := by
  intro e he
  unfold mergeCwdWithPorts at he
  rw [mergeGo_eq_map_firstByKeyGo] at he
  rcases List.mem_map.mp he with ⟨r, _, rfl⟩
  exact enrichDarwin_directory_nil p q r

theorem mergeCwdWithPorts_length (raw : List RawPortInfo)
    (c : List (Int × String)) (p : List (Int × ProcInfo))
    (q : List (Int × String)) :
    (mergeCwdWithPorts raw c p q).length = (firstByKey raw).length := by
  unfold mergeCwdWithPorts firstByKey
  rw [mergeGo_eq_map_firstByKeyGo, List.length_map]

/-- When every symlink read fails the Linux cwd fold adds nothing. -/
theorem linuxCwdFold_all_none (rl : Int → Option String)
    (h : ∀ p, rl p = none) :
    ∀ (pids : List Int) (acc : List (Int × String)),
      linuxCwdFold rl pids acc = acc := by
  intro pids
  induction pids with
  | nil => intro acc; rfl
  | cons p ps ih =>
    intro acc
    simp only [linuxCwdFold, h p]
    exact ih acc

theorem linuxMergeEntry_directory_nil (p : List (Int × ProcInfo))
    (q : List (Int × String)) (e : IPortInfo) :
    (linuxMergeEntry [] p q e).directory = "Unknown" := rfl

/-- A polling window in which every probe reports the process alive
times out after exactly `fuel` probes. -/
theorem waitForProcessExitModel_all_alive (oracle : Nat → Sig → Option ECode) :
    ∀ (fuel idx : Nat),
      (∀ j, idx ≤ j → j < idx + fuel → oracle j Sig.sigzero = none) →
      waitForProcessExitModel oracle idx fuel =
        (WaitOutcome.timedOut, idx + fuel, List.replicate fuel Sig.sigzero) := by
  intro fuel
  induction fuel with
  | zero => intro idx h; simp [waitForProcessExitModel]
  | succ f ih =>
    intro idx h
    have h0 : oracle idx Sig.sigzero = none := h idx le_rfl (by omega)
    simp only [waitForProcessExitModel, h0]
    rw [ih (idx + 1) (fun j hj1 hj2 => h j (by omega) (by omega))]
    refine Prod.ext rfl (Prod.ext ?_ ?_) <;> simp [List.replicate_succ]
    omega

/-! ## Claim theorems -/

set_option maxRecDepth 8000

/-- C1, counterexample.  On the Windows scanner a process listening on
both IPv4 and IPv6 on the same port (the standard `netstat -ano` shape)
yields TWO `PortEntry` records with identical `(pid, port)`: the
Windows merge step performs no deduplication, so the scan-result
uniqueness invariant fails as stated for "any platform scanner". -/
theorem c1_counterexample :
    (scanPortsWindowsModel (fun c =>
      if c = winCmd1 then
        ExecOutcome.ok "  TCP    0.0.0.0:135            0.0.0.0:0              LISTENING       880\n  TCP    [::]:135               [::]:0                 LISTENING       880"
      else ExecOutcome.fail false "unavailable")).1 =
      Result.success
        [{ pid := 880,
           port := 135,
           command := "PID:880",
           directory := "Unknown",
           protocol := Protocol.TCP,
           parentPid := 0,
           parentCommand := "" },
         { pid := 880,
           port := 135,
           command := "PID:880",
           directory := "Unknown",
           protocol := Protocol.TCP,
           parentPid := 0,
           parentCommand := "" }] ∧
    ¬ (([(880, 135), (880, 135)] : List (Int × Int)).Nodup) := by
  constructor
  · decide
  · decide

/-- C1 (amended): the `(pid, port)` uniqueness with first-occurrence-wins
order holds for the macOS enricher `mergeCwdWithPorts` — it equals the
enrichment map over the first-occurrence filter — and hence for every
successful darwin scan result; the Linux and Windows scanners do not
deduplicate (see the counterexample). -/
theorem c1_darwin_dedupe :
    (∀ (raw : List RawPortInfo) (c : List (Int × String))
        (p : List (Int × ProcInfo)) (q : List (Int × String)),
      mergeCwdWithPorts raw c p q = (firstByKey raw).map (enrichDarwin c p q)) ∧
    (∀ (exec : String → ExecOutcome) (l : List IPortInfo),
      (scanPortsDarwinModel exec).1 = Result.success l →
      (l.map (fun e => (e.pid, e.port))).Nodup) := by
  constructor
  · intro raw c p q
    unfold mergeCwdWithPorts firstByKey
    exact mergeGo_eq_map_firstByKeyGo c p q raw []
  · intro exec l h
    unfold scanPortsDarwinModel at h
    cases hexec : exec darwinCmd1 with
    | fail killed msg =>
      rw [hexec] at h
      cases killed <;> simp at h
    | ok out =>
      rw [hexec] at h
      by_cases hlen : (parseLsofOutput out).length = 0
      · simp only [hlen, if_pos] at h
        simp at h
        subst h
        simp
      · simp only [if_neg hlen] at h
        simp only [Result.success.injEq] at h
        subst h
        apply mergeCwdWithPorts_pairs_nodup

/-- C1 witness: a darwin scan whose lsof output binds the same
`(pid, port)` on IPv4 and IPv6 produces a single deduplicated entry,
whose key pairs are nodup. -/
theorem c1_darwin_dedupe_witness :
    ((scanPortsDarwinModel (fun c =>
        if c = darwinCmd1 then
          ExecOutcome.ok "COMMAND PID USER FD TYPE DEVICE SIZE NODE NAME\nnode 77 u 23u IPv4 0x1 0t0 TCP *:3000 (LISTEN)\nnode 77 u 24u IPv6 0x2 0t0 TCP [::1]:3000 (LISTEN)"
        else ExecOutcome.fail false "unavailable")).1 =
      Result.success
        [{ pid := 77,
           port := 3000,
           command := "node",
           directory := "Unknown",
           protocol := Protocol.TCP,
           parentPid := 0,
           parentCommand := "" }]) ∧
    (([{ pid := 77,
         port := 3000,
         command := "node",
         directory := "Unknown",
         protocol := Protocol.TCP,
         parentPid := 0,
         parentCommand := "" }] : List IPortInfo).map
       (fun e => (e.pid, e.port))).Nodup := by
  refine ⟨by decide, ?_⟩
  exact c1_darwin_dedupe.2
    (fun c =>
      if c = darwinCmd1 then
        ExecOutcome.ok "COMMAND PID USER FD TYPE DEVICE SIZE NODE NAME\nnode 77 u 23u IPv4 0x1 0t0 TCP *:3000 (LISTEN)\nnode 77 u 24u IPv6 0x2 0t0 TCP [::1]:3000 (LISTEN)"
      else ExecOutcome.fail false "unavailable")
    [{ pid := 77,
       port := 3000,
       command := "node",
       directory := "Unknown",
       protocol := Protocol.TCP,
       parentPid := 0,
       parentCommand := "" }]
    (by decide)

/-- C2, counterexample.  On the Linux scanner a resolved parent command
is stored verbatim from `ps -o args=`: here the produced entry has
`parentCommand = "/sbin/init splash"`, an absolute path with an
argument, refuting "holds only the resolved display command (not a
path)". -/
theorem c2_counterexample :
    (scanPortsLinuxModel (fun c =>
      if c = linuxCmd1 then
        ExecOutcome.ok "LISTEN 0 128 0.0.0.0:3000 0.0.0.0:* users:((\"node\",pid=42,fd=19))"
      else if c = linuxPsCmd [42] then
        ExecOutcome.ok "42 1 /usr/bin/node server.js"
      else if c = linuxParentPsCmd [1] then
        ExecOutcome.ok "1 /sbin/init splash"
      else ExecOutcome.fail false "unavailable") (fun _ => none)).1 =
      Result.success
        [{ pid := 42,
           port := 3000,
           command := "/usr/bin/node server.js",
           directory := "Unknown",
           protocol := Protocol.TCP,
           parentPid := 1,
           parentCommand := "/sbin/init splash" }] ∧
    '/' ∈ "/sbin/init splash".data ∧ ' ' ∈ "/sbin/init splash".data := by
  refine ⟨by decide, by decide, by decide⟩

/-- C2 (amended): `parentCommand` is the empty string whenever the
entry's parent PID is absent from the resolved parent-command map (in
particular when `parentPid` is 0 and no parsed line claimed PID 0);
when it is resolved, the macOS enricher stores only the executable
display name — containing neither `/` nor a space — while the Linux and
Windows merges store the full resolved command line, which may be a
path with arguments. -/
theorem c2_parent_command :
    (∀ (raw : List RawPortInfo) (c : List (Int × String))
        (p : List (Int × ProcInfo)) (q : List (Int × String)),
      ∀ e ∈ mergeCwdWithPorts raw c p q,
        (jsMapGet q e.parentPid = none → e.parentCommand = "") ∧
        '/' ∉ e.parentCommand.data ∧ ' ' ∉ e.parentCommand.data) ∧
    (∀ (c : List (Int × String)) (p : List (Int × ProcInfo))
        (q : List (Int × String)) (ports : List IPortInfo),
      ∀ e ∈ ports.map (linuxMergeEntry c p q),
        jsMapGet q e.parentPid = none → e.parentCommand = "") ∧
    (∀ (p : List (Int × ProcInfo)) (q : List (Int × String))
        (ports : List IPortInfo),
      ∀ e ∈ ports.map (winMergeEntry p q),
        jsMapGet q e.parentPid = none → e.parentCommand = "") := by
  refine ⟨?_, ?_, ?_⟩
  · intro raw c p q e he
    unfold mergeCwdWithPorts at he
    rw [mergeGo_eq_map_firstByKeyGo] at he
    rcases List.mem_map.mp he with ⟨r, _, rfl⟩
    constructor
    · intro hnone
      cases hpi : jsMapGet p r.pid <;>
        simp only [enrichDarwin, hpi] at hnone ⊢ <;>
        rw [hnone] <;> rfl
    · cases hpi : jsMapGet p r.pid <;>
        simp only [enrichDarwin, hpi] <;>
        exact parentExecOf_no_slash_no_space _
  · intro c p q ports e he h
    rcases List.mem_map.mp he with ⟨r, _, rfl⟩
    cases hpi : jsMapGet p r.pid <;>
      simp only [linuxMergeEntry, hpi] at h ⊢ <;>
      rw [h] <;> rfl
  · intro p q ports e he h
    rcases List.mem_map.mp he with ⟨r, _, rfl⟩
    cases hpi : jsMapGet p r.pid <;>
      simp only [winMergeEntry, hpi] at h ⊢ <;>
      rw [h] <;> rfl

/-- C2 witness: a singleton merge with an unresolvable parent (empty
maps) yields `parentPid = 0` and an empty `parentCommand`, with no `/`
or space in it. -/
theorem c2_parent_command_witness :
    ({ pid := 1,
       port := 2,
       command := "x",
       directory := "Unknown",
       protocol := Protocol.TCP,
       parentPid := 0,
       parentCommand := "" } : IPortInfo) ∈
      mergeCwdWithPorts
        [{ pid := 1, port := 2, command := "x", protocol := Protocol.TCP }]
        [] [] [] ∧
    jsMapGet ([] : List (Int × String))
      ({ pid := 1,
         port := 2,
         command := "x",
         directory := "Unknown",
         protocol := Protocol.TCP,
         parentPid := 0,
         parentCommand := "" } : IPortInfo).parentPid = none ∧
    ({ pid := 1,
       port := 2,
       command := "x",
       directory := "Unknown",
       protocol := Protocol.TCP,
       parentPid := 0,
       parentCommand := "" } : IPortInfo).parentCommand = "" := by
  refine ⟨by decide, by decide, ?_⟩
  exact (c2_parent_command.1
    [{ pid := 1, port := 2, command := "x", protocol := Protocol.TCP }]
    [] [] []
    { pid := 1,
      port := 2,
      command := "x",
      directory := "Unknown",
      protocol := Protocol.TCP,
      parentPid := 0,
      parentCommand := "" }
    (by decide)).1 (by decide)

/-- C3: parsing the listening-socket line
`node 12345 user 23u IPv4 ... TCP *:3000 (LISTEN)` and enriching it with
directory map `{12345 ↦ "/srv/app"}`, process map
`{12345 ↦ {command: "node server.js", ppid: 1}}` and an empty
parent-command map yields exactly the specified `PortEntry`. -/
theorem c3_end_to_end :
    parseLsofLine ("node 12345 user 23u IPv4 ... TCP *:3000 (LISTEN)".data) =
      some { pid := 12345, port := 3000, command := "node", protocol := Protocol.TCP } ∧
    mergeCwdWithPorts
      [{ pid := 12345, port := 3000, command := "node", protocol := Protocol.TCP }]
      [(12345, "/srv/app")]
      [(12345, { command := "node server.js", ppid := 1 })]
      [] =
      [{ pid := 12345,
         port := 3000,
         command := "node server.js",
         directory := "/srv/app",
         protocol := Protocol.TCP,
         parentPid := 1,
         parentCommand := "" }] := by
  constructor
  · decide
  · decide

/-- C4: when the listing step succeeds but parses to zero records, every
platform scanner returns success with an empty list and performs no
further external invocation: the trace is exactly the step-1 command —
no directory, process-info or parent-command command, and no `/proc`
symlink read. -/
theorem c4_empty_scan_short_circuit :
    (∀ (exec : String → ExecOutcome) (out : String),
      exec darwinCmd1 = ExecOutcome.ok out → parseLsofOutput out = [] →
      scanPortsDarwinModel exec =
        (Result.success [], [Invocation.run darwinCmd1 LSOF_COMMAND_TIMEOUT])) ∧
    (∀ (exec : String → ExecOutcome) (rl : Int → Option String) (out : String),
      exec linuxCmd1 = ExecOutcome.ok out → parseSsOutput out = [] →
      scanPortsLinuxModel exec rl =
        (Result.success [], [Invocation.run linuxCmd1 LSOF_COMMAND_TIMEOUT])) ∧
    (∀ (exec : String → ExecOutcome) (out : String),
      exec winCmd1 = ExecOutcome.ok out → parseNetstatOutput out = [] →
      scanPortsWindowsModel exec =
        (Result.success [], [Invocation.run winCmd1 LSOF_COMMAND_TIMEOUT])) := by
  refine ⟨?_, ?_, ?_⟩
  · intro exec out h1 h2
    unfold scanPortsDarwinModel
    rw [h1]
    simp [h2]
  · intro exec rl out h1 h2
    unfold scanPortsLinuxModel
    rw [h1]
    simp [h2]
  · intro exec out h1 h2
    unfold scanPortsWindowsModel
    rw [h1]
    simp [h2]

/-- C4 witness: an executor answering the listing command with empty
output short-circuits all three scanners to a success with an empty
list after one invocation. -/
theorem c4_empty_scan_short_circuit_witness :
    ((fun _ : String => ExecOutcome.ok "") darwinCmd1 = ExecOutcome.ok "") ∧
    parseLsofOutput "" = [] ∧ parseSsOutput "" = [] ∧ parseNetstatOutput "" = [] ∧
    scanPortsDarwinModel (fun _ => ExecOutcome.ok "") =
      (Result.success [], [Invocation.run darwinCmd1 LSOF_COMMAND_TIMEOUT]) ∧
    scanPortsLinuxModel (fun _ => ExecOutcome.ok "") (fun _ => none) =
      (Result.success [], [Invocation.run linuxCmd1 LSOF_COMMAND_TIMEOUT]) ∧
    scanPortsWindowsModel (fun _ => ExecOutcome.ok "") =
      (Result.success [], [Invocation.run winCmd1 LSOF_COMMAND_TIMEOUT]) :=
  ⟨rfl, by decide, by decide, by decide,
   c4_empty_scan_short_circuit.1 (fun _ => ExecOutcome.ok "") "" rfl (by decide),
   c4_empty_scan_short_circuit.2.1 (fun _ => ExecOutcome.ok "") (fun _ => none) "" rfl (by decide),
   c4_empty_scan_short_circuit.2.2 (fun _ => ExecOutcome.ok "") "" rfl (by decide)⟩

/-- C5: once the listing step succeeds the scan always reports success
with the full entry list (enrichment failures are locally recovered,
never surfaced as a `ScanError`), and when the directory step fails
entirely every entry's directory is the `"Unknown"` sentinel. -/
theorem c5_dir_failure_nonfatal :
    (∀ (exec : String → ExecOutcome) (out : String),
      exec darwinCmd1 = ExecOutcome.ok out →
      ∃ l, (scanPortsDarwinModel exec).1 = Result.success l ∧
        l.length = (firstByKey (parseLsofOutput out)).length ∧
        (∀ (killed : Bool) (msg : String),
          exec (darwinCwdCmd (dedupFirstInt
              ((parseLsofOutput out).map (fun p => p.pid)))) =
            ExecOutcome.fail killed msg →
          ∀ e ∈ l, e.directory = "Unknown")) ∧
    (∀ (exec : String → ExecOutcome) (rl : Int → Option String) (out : String),
      exec linuxCmd1 = ExecOutcome.ok out →
      ∃ l, (scanPortsLinuxModel exec rl).1 = Result.success l ∧
        l.length = (parseSsOutput out).length ∧
        ((∀ p, rl p = none) → ∀ e ∈ l, e.directory = "Unknown")) := by
  constructor
  · intro exec out h1
    unfold scanPortsDarwinModel
    rw [h1]
    by_cases hlen : (parseLsofOutput out).length = 0
    · refine ⟨[], by simp [hlen], ?_, ?_⟩
      · have hnil : parseLsofOutput out = [] := List.length_eq_zero.mp hlen
        rw [hnil]
        rfl
      · intro _ _ _ e he
        simp at he
    · simp only [if_neg hlen]
      refine ⟨_, rfl, mergeCwdWithPorts_length _ _ _ _, ?_⟩
      intro killed msg hfail e he
      rw [hfail] at he
      exact mem_merge_directory_unknown _ _ _ e he
  · intro exec rl out h1
    unfold scanPortsLinuxModel
    rw [h1]
    by_cases hlen : (parseSsOutput out).length = 0
    · refine ⟨[], by simp [hlen], by simp [hlen], ?_⟩
      intro _ e he
      simp at he
    · simp only [if_neg hlen]
      refine ⟨_, rfl, by simp, ?_⟩
      intro hnone e he
      rw [linuxCwdFold_all_none rl hnone] at he
      rcases List.mem_map.mp he with ⟨r, _, rfl⟩
      exact linuxMergeEntry_directory_nil _ _ r

/-- C5 witness: a darwin scan and a Linux scan whose directory steps
fail entirely still succeed, with the single entry's directory equal to
`"Unknown"`. -/
theorem c5_dir_failure_nonfatal_witness :
    ((fun c => if c = darwinCmd1 then
        ExecOutcome.ok "COMMAND PID USER FD TYPE DEVICE SIZE NODE NAME\nnode 9 u 1u IPv4 x 0t0 TCP *:81 (LISTEN)"
      else ExecOutcome.fail false "boom") darwinCmd1 =
        ExecOutcome.ok "COMMAND PID USER FD TYPE DEVICE SIZE NODE NAME\nnode 9 u 1u IPv4 x 0t0 TCP *:81 (LISTEN)") ∧
    (∃ l, (scanPortsDarwinModel (fun c => if c = darwinCmd1 then
        ExecOutcome.ok "COMMAND PID USER FD TYPE DEVICE SIZE NODE NAME\nnode 9 u 1u IPv4 x 0t0 TCP *:81 (LISTEN)"
      else ExecOutcome.fail false "boom")).1 = Result.success l ∧
      l.length = (firstByKey (parseLsofOutput "COMMAND PID USER FD TYPE DEVICE SIZE NODE NAME\nnode 9 u 1u IPv4 x 0t0 TCP *:81 (LISTEN)")).length ∧
      (∀ (killed : Bool) (msg : String),
        (fun c => if c = darwinCmd1 then
            ExecOutcome.ok "COMMAND PID USER FD TYPE DEVICE SIZE NODE NAME\nnode 9 u 1u IPv4 x 0t0 TCP *:81 (LISTEN)"
          else ExecOutcome.fail false "boom")
          (darwinCwdCmd (dedupFirstInt
            ((parseLsofOutput "COMMAND PID USER FD TYPE DEVICE SIZE NODE NAME\nnode 9 u 1u IPv4 x 0t0 TCP *:81 (LISTEN)").map (fun p => p.pid)))) =
          ExecOutcome.fail killed msg →
        ∀ e ∈ l, e.directory = "Unknown")) ∧
    (scanPortsDarwinModel (fun c => if c = darwinCmd1 then
        ExecOutcome.ok "COMMAND PID USER FD TYPE DEVICE SIZE NODE NAME\nnode 9 u 1u IPv4 x 0t0 TCP *:81 (LISTEN)"
      else ExecOutcome.fail false "boom")).1 =
      Result.success
        [{ pid := 9,
           port := 81,
           command := "node",
           directory := "Unknown",
           protocol := Protocol.TCP,
           parentPid := 0,
           parentCommand := "" }] :=
  ⟨by decide,
   c5_dir_failure_nonfatal.1
     (fun c => if c = darwinCmd1 then
        ExecOutcome.ok "COMMAND PID USER FD TYPE DEVICE SIZE NODE NAME\nnode 9 u 1u IPv4 x 0t0 TCP *:81 (LISTEN)"
      else ExecOutcome.fail false "boom")
     "COMMAND PID USER FD TYPE DEVICE SIZE NODE NAME\nnode 9 u 1u IPv4 x 0t0 TCP *:81 (LISTEN)"
     (by decide),
   by decide⟩

/-- C6: a PID whose existence probe reports it gone (ESRCH) on the first
poll after the graceful signal makes `killProcess` succeed without ever
sending SIGKILL. -/
theorem c6_graceful_exit_no_sigkill (pid : Int)
    (oracle : Nat → Sig → Option ECode) (gracefulFuel forcefulFuel : Nat)
    (hterm : oracle 0 Sig.sigterm = none)
    (hprobe : oracle 1 Sig.sigzero = some ECode.esrch)
    (hfuel : 0 < gracefulFuel) :
    (killProcessUnixModel pid oracle gracefulFuel forcefulFuel).1 =
      Result.success () ∧
    Sig.sigkill ∉ (killProcessUnixModel pid oracle gracefulFuel forcefulFuel).2 := by
  obtain ⟨g, rfl⟩ : ∃ g, gracefulFuel = g + 1 := ⟨gracefulFuel - 1, by omega⟩
  unfold killProcessUnixModel
  rw [hterm]
  dsimp only
  simp only [waitForProcessExitModel, hprobe]
  refine ⟨by first | rfl | trivial, by decide⟩

/-- C6 witness: the concrete oracle whose first probe reports ESRCH. -/
theorem c6_graceful_exit_no_sigkill_witness :
    ((fun (i : Nat) (_ : Sig) =>
        if i = 1 then some ECode.esrch else none) 0 Sig.sigterm = none) ∧
    ((fun (i : Nat) (_ : Sig) =>
        if i = 1 then some ECode.esrch else none) 1 Sig.sigzero = some ECode.esrch) ∧
    0 < 30 ∧
    ((killProcessUnixModel 7
        (fun i _ => if i = 1 then some ECode.esrch else none) 30 10).1 =
      Result.success () ∧
    Sig.sigkill ∉ (killProcessUnixModel 7
        (fun i _ => if i = 1 then some ECode.esrch else none) 30 10).2) :=
  ⟨by decide, by decide, by decide,
   c6_graceful_exit_no_sigkill 7
     (fun i _ => if i = 1 then some ECode.esrch else none) 30 10
     (by decide) (by decide) (by decide)⟩

/-- C7: a PID whose probes keep reporting it alive through the whole
graceful window makes `killProcess` send SIGKILL (whatever that send's
outcome and whatever the second bounded poll reports) and still report
success. -/
theorem c7_escalation_reports_success (pid : Int)
    (oracle : Nat → Sig → Option ECode) (gracefulFuel forcefulFuel : Nat)
    (hterm : oracle 0 Sig.sigterm = none)
    (halive : ∀ i, 1 ≤ i → i ≤ gracefulFuel → oracle i Sig.sigzero = none) :
    (killProcessUnixModel pid oracle gracefulFuel forcefulFuel).1 =
      Result.success () ∧
    Sig.sigkill ∈ (killProcessUnixModel pid oracle gracefulFuel forcefulFuel).2 := by
  unfold killProcessUnixModel
  rw [hterm]
  dsimp only
  rw [waitForProcessExitModel_all_alive oracle gracefulFuel 1
    (fun j hj1 hj2 => halive j hj1 (by omega))]
  dsimp only
  cases oracle (1 + gracefulFuel) Sig.sigkill with
  | some e => exact ⟨rfl, by simp⟩
  | none => exact ⟨rfl, by simp⟩

/-- C7 witness: the always-alive oracle with a 3-probe graceful window
escalates and succeeds. -/
theorem c7_escalation_reports_success_witness :
    ((fun (_ : Nat) (_ : Sig) => (none : Option ECode)) 0 Sig.sigterm = none) ∧
    (∀ i, 1 ≤ i → i ≤ 3 →
      (fun (_ : Nat) (_ : Sig) => (none : Option ECode)) i Sig.sigzero = none) ∧
    ((killProcessUnixModel 7 (fun _ _ => none) 3 2).1 = Result.success () ∧
      Sig.sigkill ∈ (killProcessUnixModel 7 (fun _ _ => none) 3 2).2) :=
  ⟨rfl, fun _ _ _ => rfl,
   c7_escalation_reports_success 7 (fun _ _ => none) 3 2 rfl (fun _ _ _ => rfl)⟩

/-- C8: a failed scan tick notifies no subscriber and leaves the polling
state (timer armed-ness, interval, listener list) untouched; the
following tick proceeds exactly as it would have without the failure. -/
theorem c8_failed_tick_swallowed (st : PMState) (err : ScanError)
    (rs : List ScanResult) :
    fetchAndNotify st (Result.failure err) = (st, []) ∧
    runTicks st (Result.failure err :: rs) =
      ((runTicks st rs).1, [] :: (runTicks st rs).2) := by
  exact ⟨rfl, rfl⟩

/-- Every record the Windows netstat parser emits carries the synthetic
placeholder command. -/
theorem netstatWinLines_command :
    ∀ (ls : List Chars) (r : IPortInfo), r ∈ netstatWinLines ls →
      r.command = "PID:" ++ toString r.pid := by
  intro ls
  induction ls with
  | nil =>
    intro r hr
    simp [netstatWinLines] at hr
  | cons l ls ih =>
    intro r hr
    simp only [netstatWinLines] at hr
    split at hr
    · exact ih r hr
    · split at hr
      · exact ih r hr
      · split at hr
        · split at hr
          · exact ih r hr
          · split at hr
            · split at hr
              · exact ih r hr
              · rcases List.mem_cons.mp hr with rfl | hmem
                · rfl
                · exact ih r hmem
            · exact ih r hr
        · exact ih r hr

theorem winMergeEntry_pid (p : List (Int × ProcInfo))
    (q : List (Int × String)) (e : IPortInfo) :
    (winMergeEntry p q e).pid = e.pid := rfl

/-- A PID missing from the process-info map keeps the raw command on the
Windows merge. -/
theorem winMergeEntry_command_none (p : List (Int × ProcInfo))
    (q : List (Int × String)) (e : IPortInfo)
    (h : jsMapGet p e.pid = none) :
    (winMergeEntry p q e).command = e.command := by
  simp [winMergeEntry, h, jsOrString]

/-- C9: on the Windows scanner every raw record's command is the
placeholder `` `PID:${pid}` ``, and every final entry whose PID ended up
with no record in the (wmic, then tasklist-fallback) process-info map
keeps that placeholder as its command. -/
theorem c9_windows_placeholder_command :
    (∀ (output : String), ∀ r ∈ parseNetstatOutput output,
      r.command = "PID:" ++ toString r.pid) ∧
    (∀ (exec : String → ExecOutcome) (out : String) (l : List IPortInfo),
      exec winCmd1 = ExecOutcome.ok out →
      (scanPortsWindowsModel exec).1 = Result.success l →
      ∀ e ∈ l,
        jsMapGet (windowsProcessInfoMap exec
          (dedupFirstInt ((parseNetstatOutput out).map (fun p => p.pid)))).1
          e.pid = none →
        e.command = "PID:" ++ toString e.pid) := by
  constructor
  · intro output r hr
    exact netstatWinLines_command _ r hr
  · intro exec out l h1 hs e he hnone
    unfold scanPortsWindowsModel at hs
    rw [h1] at hs
    by_cases hlen : (parseNetstatOutput out).length = 0
    · simp only [hlen, if_pos] at hs
      simp at hs
      subst hs
      simp at he
    · simp only [if_neg hlen] at hs
      simp only [Result.success.injEq] at hs
      subst hs
      rcases List.mem_map.mp he with ⟨r, hr, rfl⟩
      rw [winMergeEntry_pid] at hnone
      rw [winMergeEntry_pid, winMergeEntry_command_none _ _ _ hnone]
      exact netstatWinLines_command _ r hr

/-- C9 witness: a Windows scan whose wmic and tasklist queries both fail
returns the entry with the placeholder command `PID:5`. -/
theorem c9_windows_placeholder_command_witness :
    ((fun c => if c = winCmd1 then
        ExecOutcome.ok "  TCP    0.0.0.0:7000    0.0.0.0:0    LISTENING    5"
      else ExecOutcome.fail false "x") winCmd1 =
        ExecOutcome.ok "  TCP    0.0.0.0:7000    0.0.0.0:0    LISTENING    5") ∧
    ((scanPortsWindowsModel (fun c => if c = winCmd1 then
        ExecOutcome.ok "  TCP    0.0.0.0:7000    0.0.0.0:0    LISTENING    5"
      else ExecOutcome.fail false "x")).1 =
      Result.success
        [{ pid := 5,
           port := 7000,
           command := "PID:5",
           directory := "Unknown",
           protocol := Protocol.TCP,
           parentPid := 0,
           parentCommand := "" }]) ∧
    (({ pid := 5,
        port := 7000,
        command := "PID:5",
        directory := "Unknown",
        protocol := Protocol.TCP,
        parentPid := 0,
        parentCommand := "" } : IPortInfo) ∈
      [({ pid := 5,
          port := 7000,
          command := "PID:5",
          directory := "Unknown",
          protocol := Protocol.TCP,
          parentPid := 0,
          parentCommand := "" } : IPortInfo)]) ∧
    (jsMapGet (windowsProcessInfoMap (fun c => if c = winCmd1 then
        ExecOutcome.ok "  TCP    0.0.0.0:7000    0.0.0.0:0    LISTENING    5"
      else ExecOutcome.fail false "x")
      (dedupFirstInt ((parseNetstatOutput
        "  TCP    0.0.0.0:7000    0.0.0.0:0    LISTENING    5").map
          (fun p => p.pid)))).1 (5 : Int) = none) ∧
    ({ pid := 5,
       port := 7000,
       command := "PID:5",
       directory := "Unknown",
       protocol := Protocol.TCP,
       parentPid := 0,
       parentCommand := "" } : IPortInfo).command =
      "PID:" ++ toString (5 : Int) :=
  ⟨by decide, by decide, by decide, by decide,
   c9_windows_placeholder_command.2
     (fun c => if c = winCmd1 then
        ExecOutcome.ok "  TCP    0.0.0.0:7000    0.0.0.0:0    LISTENING    5"
      else ExecOutcome.fail false "x")
     "  TCP    0.0.0.0:7000    0.0.0.0:0    LISTENING    5"
     [{ pid := 5,
        port := 7000,
        command := "PID:5",
        directory := "Unknown",
        protocol := Protocol.TCP,
        parentPid := 0,
        parentCommand := "" }]
     (by decide) (by decide)
     { pid := 5,
       port := 7000,
       command := "PID:5",
       directory := "Unknown",
       protocol := Protocol.TCP,
       parentPid := 0,
       parentCommand := "" }
     (by decide) (by decide)⟩

/-- C10: both macOS parsers unconditionally treat the first line of the
(trimmed) input as a header: any input of at most one line parses to an
empty result, and on longer inputs the result is a function of the tail
lines only — a well-formed record on the first line is never parsed. -/
theorem c10_first_line_is_header (s : String) :
    ((splitOnChar '\n' (jsTrim s.data)).length ≤ 1 →
      parseLsofOutput s = [] ∧ parseCwdOutput s = []) ∧
    (∀ hd tl, splitOnChar '\n' (jsTrim s.data) = hd :: tl →
      parseLsofOutput s = lsofDataLines tl ∧
      parseCwdOutput s = cwdDataLines tl []) := by
  constructor
  · intro h
    constructor
    · simp [parseLsofOutput, h]
    · simp [parseCwdOutput, h]
  · intro hd tl heq
    by_cases h : (splitOnChar '\n' (jsTrim s.data)).length ≤ 1
    · have htl : tl = [] := by
        rw [heq, List.length_cons] at h
        exact List.length_eq_zero.mp (by omega)
      subst htl
      constructor
      · simp [parseLsofOutput, h, lsofDataLines]
      · simp [parseCwdOutput, h, cwdDataLines]
    · rw [heq] at h
      constructor
      · simp only [parseLsofOutput]
        rw [heq, if_neg h, List.drop_succ_cons, List.drop_zero]
      · simp only [parseCwdOutput]
        rw [heq, if_neg h, List.drop_succ_cons, List.drop_zero]

/-- C10 witness: a single well-formed LISTEN line alone parses to
nothing (it is consumed as the header), while the same line preceded by
a header line parses to exactly one record. -/
theorem c10_first_line_is_header_witness :
    ((splitOnChar '\n'
        (jsTrim "node 12345 user 23u IPv4 x 0t0 TCP *:3000 (LISTEN)".data)).length ≤ 1) ∧
    (parseLsofOutput "node 12345 user 23u IPv4 x 0t0 TCP *:3000 (LISTEN)" = [] ∧
      parseCwdOutput "node 12345 user 23u IPv4 x 0t0 TCP *:3000 (LISTEN)" = []) ∧
    (splitOnChar '\n'
        (jsTrim "HEADER\nnode 12345 user 23u IPv4 x 0t0 TCP *:3000 (LISTEN)".data) =
      "HEADER".data ::
        ["node 12345 user 23u IPv4 x 0t0 TCP *:3000 (LISTEN)".data]) ∧
    (parseLsofOutput "HEADER\nnode 12345 user 23u IPv4 x 0t0 TCP *:3000 (LISTEN)" =
        lsofDataLines ["node 12345 user 23u IPv4 x 0t0 TCP *:3000 (LISTEN)".data] ∧
      parseCwdOutput "HEADER\nnode 12345 user 23u IPv4 x 0t0 TCP *:3000 (LISTEN)" =
        cwdDataLines ["node 12345 user 23u IPv4 x 0t0 TCP *:3000 (LISTEN)".data] []) ∧
    parseLsofOutput "HEADER\nnode 12345 user 23u IPv4 x 0t0 TCP *:3000 (LISTEN)" =
      [{ pid := 12345, port := 3000, command := "node", protocol := Protocol.TCP }] :=
  ⟨by decide,
   (c10_first_line_is_header
     "node 12345 user 23u IPv4 x 0t0 TCP *:3000 (LISTEN)").1 (by decide),
   by decide,
   (c10_first_line_is_header
     "HEADER\nnode 12345 user 23u IPv4 x 0t0 TCP *:3000 (LISTEN)").2
     ("HEADER".data)
     ["node 12345 user 23u IPv4 x 0t0 TCP *:3000 (LISTEN)".data]
     (by decide),
   by decide⟩

end Portlist
